import Mathlib

/-
Verification of the benefind.ai core logic: the eligibility engine
(src/benefind.ai/src/services/geminiService.ts), the resource-retrieval
parsing step (the fetchResults handler of the main App component), and the
conversational session controller (src/benefind.ai/src/pages/VoiceAgent.tsx).
JavaScript numbers are modelled as exact rationals, strings as Lean strings
(lists of characters for the marker-scanning parts), and the stateful UI
handlers as explicit state-passing functions; Date.now and Math.random are
modelled as oracles indexed by the number of draws made so far.
-/

namespace Benefind

/-! ## Eligibility engine (geminiService.ts, checkEligibility, lines 54-72) -/

/-- 2024 FPL for 1 person, monthly (geminiService.ts line 58). -/
def fplBase : ℚ := 15060 / 12

/-- 2024 FPL increment per additional person, monthly (line 59). -/
def fplIncrement : ℚ := 5380 / 12

/-- Result record returned by checkEligibility (lines 65-71). -/
structure EligibilityResult where
  isEligible : Bool
  limit : ℚ
  reason : String
deriving Repr, DecidableEq

/-- Shallow embedding of checkEligibility (geminiService.ts lines 54-72).
The function performs no input validation: it computes the gross income
limit and the verdict for every input, exactly as the source does. -/
def checkEligibility (familySize monthlyIncome : ℚ) (state : String) :
    EligibilityResult :=
  let grossIncomeLimit : ℚ := (fplBase + (familySize - 1) * fplIncrement) * 1.3
  let isEligible : Bool := decide (monthlyIncome ≤ grossIncomeLimit)
  { isEligible := isEligible
    limit := grossIncomeLimit
    reason :=
      if isEligible then
        "Your income of $" ++ toString monthlyIncome ++
          " is below the estimated gross income limit of $" ++
          toString (round grossIncomeLimit) ++ " for a family of " ++
          toString familySize ++ " in " ++ state ++ "."
      else
        "Your income of $" ++ toString monthlyIncome ++
          " exceeds the estimated gross income limit of $" ++
          toString (round grossIncomeLimit) ++ " for a family of " ++
          toString familySize ++ " in " ++ state ++ "." }

/-! ## Resource retrieval and parsing

getSnapResources (geminiService.ts lines 19-52) returns the response text
and the grounding chunks; the fetchResults handler of the App component
(lines 67-95 of the component file) parses the text into three sections
using lazy regexes of the shape

  marker, then a lazy any-character capture, then a lookahead for either
  of the two other markers or end of string,

so a section runs from just after its marker up to the first later
position where one of the other two markers begins, or the end of the
text, and the capture is then whitespace-trimmed.  Strings are scanned
here as lists of characters. -/

/-- Boolean test that the first list is an initial segment of the second. -/
def leadsWith : List Char → List Char → Bool
  | [], _ => true
  | _ :: _, [] => false
  | a :: as, b :: bs => a = b && leadsWith as bs

/-- Number of positions of the text at which the marker begins
(overlapping occurrences all counted). -/
def countOcc (m : List Char) : List Char → Nat
  | [] => if leadsWith m [] then 1 else 0
  | c :: rest => (if leadsWith m (c :: rest) then 1 else 0) + countOcc m rest

/-- Boolean test that the marker begins at some position of the text. -/
def occursIn (m : List Char) : List Char → Bool
  | [] => leadsWith m []
  | c :: rest => leadsWith m (c :: rest) || occursIn m rest

/-- The suffix of the text just after the first occurrence of the marker,
or none when the marker does not occur: where a successful regex match
beginning with the literal marker starts its capture. -/
def afterFirst (m : List Char) : List Char → Option (List Char)
  | [] => if leadsWith m [] then some [] else none
  | c :: rest =>
      if leadsWith m (c :: rest) then some ((c :: rest).drop m.length)
      else afterFirst m rest

/-- The lazy capture: the longest initial segment of the text no suffix of
which begins at its first character with one of the stop markers; this is
the capture of a lazy any-character group followed by a lookahead for the
stops or the end of the string. -/
def captureUntil (stops : List (List Char)) : List Char → List Char
  | [] => []
  | c :: rest =>
      if stops.any (fun m => leadsWith m (c :: rest)) then []
      else c :: captureUntil stops rest

/-- Both-ends whitespace trim, as the JavaScript trim call. -/
def trimChars (s : List Char) : List Char :=
  ((s.dropWhile Char.isWhitespace).reverse.dropWhile Char.isWhitespace).reverse

/-- The section a regex of the shape described above extracts: empty when
the marker is absent, otherwise the trimmed capture running to the first
stop marker or the end. -/
def extractSection (marker : List Char) (stops : List (List Char))
    (text : List Char) : String :=
  match afterFirst marker text with
  | none => ""
  | some rest => String.mk (trimChars (captureUntil stops rest))

def officeMarker : List Char := "[SNAP_OFFICE]".data

def storesMarker : List Char := "[GROCERY_STORES]".data

def pantriesMarker : List Char := "[FOOD_PANTRIES]".data

def allMarkers : List (List Char) := [officeMarker, storesMarker, pantriesMarker]

/-- A grounding citation record: the web source is present or absent. -/
structure WebSource where
  title : String
  uri : String
deriving Repr, DecidableEq

structure GroundingChunk where
  web : Option WebSource
deriving Repr, DecidableEq

/-- The raw response of the external grounded-generation call: the text
and the grounding chunks may each be absent. -/
structure ServiceResponse where
  text : Option String
  groundingChunks : Option (List GroundingChunk)
deriving Repr, DecidableEq

/-- Value returned by getSnapResources (geminiService.ts lines 44-47):
the response text as is, and the grounding chunks with absence coalesced
to the empty list. -/
structure SnapResources where
  text : Option String
  groundingChunks : List GroundingChunk
deriving Repr, DecidableEq

def getSnapResources (response : ServiceResponse) : SnapResources :=
  { text := response.text
    groundingChunks := response.groundingChunks.getD [] }

/-- The parsed bundle built by fetchResults (lines 79-85 of the App
component). -/
structure ParsedResources where
  office : String
  stores : String
  pantries : String
  fullText : String
  groundingChunks : List GroundingChunk
deriving Repr, DecidableEq

/-- Shallow embedding of the parsing step of fetchResults (lines 74-85 of
the App component): each of the three sections is extracted by a regex
stopping at either of the other two markers or the end, the full text is
stored verbatim, and the grounding chunks are stored as received. -/
def parseResources (text : String) (chunks : List GroundingChunk) :
    ParsedResources :=
  { office := extractSection officeMarker [storesMarker, pantriesMarker] text.data
    stores := extractSection storesMarker [officeMarker, pantriesMarker] text.data
    pantries := extractSection pantriesMarker [officeMarker, storesMarker] text.data
    fullText := text
    groundingChunks := chunks }

/-- fetchResults applied to the value of getSnapResources: the text is
coalesced to the empty string when absent (the or-else on line 74), then
parsed. -/
def fetchParsedResources (resources : SnapResources) : ParsedResources :=
  parseResources (resources.text.getD "") resources.groundingChunks

/-- The parsing contract as worded by the spec (section 4.2): extract the
substring beginning immediately after the marker and ending immediately
before the next position at which any of the three markers begins, or the
end of the text, whichever comes first, and trim surrounding whitespace;
the empty string when the marker is absent. -/
def specSection (marker : List Char) (text : List Char) : String :=
  match afterFirst marker text with
  | none => ""
  | some rest => String.mk (trimChars (captureUntil allMarkers rest))

/-- A concrete well-formed service response used as a check input. -/
def sampleResponse : String :=
  "[SNAP_OFFICE] A [GROCERY_STORES] B [FOOD_PANTRIES] C"

/-! ## Session controller (VoiceAgent.tsx) -/

/-- Observable outcome of one run of handleStartSession (VoiceAgent.tsx
lines 77-88), with the environment abstracted by two booleans: whether the
audio-capture permission is granted and whether the transport start
succeeds. -/
structure StartAttempt where
  micRequested : Bool
  sessionRequested : Bool
  connectedAfter : Bool
  errorLoggedToConsole : Bool
  raisedToCaller : Bool
deriving Repr, DecidableEq

/-- Shallow embedding of handleStartSession (VoiceAgent.tsx lines 77-88).
The handler always awaits getUserMedia with audio true, in voice and in
text mode alike: the mode only selects between the two identical empty
option spreads on line 83, so it does not influence the behaviour at all.
A failure of either await is caught on line 85 and logged to the console;
nothing is rethrown to the caller. -/
def handleStartSession (isTextMode micGranted startOk : Bool) : StartAttempt :=
  let _modeOptions := if isTextMode then () else ()
  if micGranted then
    if startOk then
      { micRequested := true, sessionRequested := true, connectedAfter := true,
        errorLoggedToConsole := false, raisedToCaller := false }
    else
      { micRequested := true, sessionRequested := true, connectedAfter := false,
        errorLoggedToConsole := true, raisedToCaller := false }
  else
    { micRequested := true, sessionRequested := false, connectedAfter := false,
      errorLoggedToConsole := true, raisedToCaller := false }

/-- The component state relevant to mode toggling: the connection flag,
the mode flag, and the number of setTimeout callbacks scheduled by
handleToggleMode that have not yet fired. -/
structure AgentUi where
  connected : Bool
  isTextMode : Bool
  pendingStarts : Nat
deriving Repr, DecidableEq

/-- handleEndSession (lines 90-96): closes the session; it touches no
timer. -/
def handleEndSession (s : AgentUi) : AgentUi := { s with connected := false }

/-- Shallow embedding of handleToggleMode (VoiceAgent.tsx lines 98-110):
when connected it first runs handleEndSession, then flips the mode, then
schedules a deferred handleStartSession with setTimeout; the timer handle
is discarded, so no operation of the component ever cancels a pending
deferred start.  When disconnected it only flips the mode. -/
def handleToggleMode (s : AgentUi) : AgentUi :=
  let wasConnected := s.connected
  let s1 := if wasConnected then handleEndSession s else s
  let s2 := { s1 with isTextMode := !s1.isTextMode }
  if wasConnected then { s2 with pendingStarts := s2.pendingStarts + 1 } else s2

/-- One scheduled setTimeout callback firing: it runs handleStartSession
unconditionally, because no cancellation path exists in the component;
startSucceeds abstracts the permission and transport outcomes of that
deferred run. -/
def fireDeferredStart (startSucceeds : Bool) (s : AgentUi) : AgentUi :=
  if s.pendingStarts = 0 then s
  else { s with pendingStarts := s.pendingStarts - 1,
                connected := s.connected || startSucceeds }

/-! ## Message log (VoiceAgent.tsx, addMessage and the onMessage callback) -/

inductive Role
  | user
  | agent
deriving Repr, DecidableEq

/-- A log entry (the Message interface, lines 22-27); the timestamp is the
Date.now value captured at append time. -/
structure Message where
  id : String
  role : Role
  text : String
  timestamp : Nat
deriving Repr, DecidableEq

/-- An event delivered to the onMessage callback (lines 50-56).  The
callback destructures only the message and the source; a timestamp carried
by the wire event, modelled by extTimestamp, is never read. -/
structure IncomingEvent where
  message : String
  source : String
  extTimestamp : Nat
deriving Repr, DecidableEq

/-- The identifier built on line 41: Date.now(), a dash and a random
base-36 suffix, both drawn at append time. -/
def mkId (now : Nat) (rand : String) : String := toString now ++ "-" ++ rand

/-- Shallow embedding of addMessage (lines 37-47): append exactly one
message carrying a freshly built identifier and the capture time. -/
def addMessage (now : Nat) (rand : String) (role : Role) (text : String)
    (msgs : List Message) : List Message :=
  msgs ++ [{ id := mkId now rand, role := role, text := text, timestamp := now }]

/-- One run of the onMessage callback (lines 50-56): an event with source
ai appends an agent message, one with source user appends a user message,
and any other source is dropped. -/
def onMessage (now : Nat) (rand : String) (e : IncomingEvent)
    (msgs : List Message) : List Message :=
  if e.source = "ai" then addMessage now rand Role.agent e.message msgs
  else if e.source = "user" then addMessage now rand Role.user e.message msgs
  else msgs

/-- Deliver a sequence of events to the onMessage callback in order.  The
clock and randomness oracles are indexed by the number of appends made so
far; each append draws the next pair, mirroring the Date.now and
Math.random calls inside addMessage.  The branches are those of the
onMessage callback, spelled out so that dropped events draw nothing. -/
def ingestFrom (clock : Nat → Nat) (rand : Nat → String) :
    List IncomingEvent → Nat → List Message → List Message
  | [], _, msgs => msgs
  | e :: es, k, msgs =>
      if e.source = "ai" then
        ingestFrom clock rand es (k + 1)
          (addMessage (clock k) (rand k) Role.agent e.message msgs)
      else if e.source = "user" then
        ingestFrom clock rand es (k + 1)
          (addMessage (clock k) (rand k) Role.user e.message msgs)
      else ingestFrom clock rand es k msgs

/-- The log resulting from delivering a sequence of events to a freshly
mounted component. -/
def ingest (clock : Nat → Nat) (rand : Nat → String)
    (events : List IncomingEvent) : List Message :=
  ingestFrom clock rand events 0 []

/-- Index-explicit description of the log grown by a run of ingestFrom:
the message appended for the i-th event draws the clock and the random
suffix at index k + i. -/
def buildLog (clock : Nat → Nat) (rand : Nat → String) :
    Nat → List IncomingEvent → List Message
  | _, [] => []
  | k, e :: es =>
      { id := mkId (clock k) (rand k)
        role := if e.source = "ai" then Role.agent else Role.user
        text := e.message
        timestamp := clock k } :: buildLog clock rand (k + 1) es

end Benefind

namespace Benefind

/-! ## Theorems: eligibility engine -/

/-- C1: for every call to checkEligibility with familySize at least 1 and
monthlyIncome at least 0, the computed limit equals
(base + (familySize - 1) * increment) * 1.3 with base = 15060/12 and
increment = 5380/12, and isEligible is true exactly when
monthlyIncome is at most the limit. -/
theorem c1_eligibility_rule (familySize monthlyIncome : ℚ) (state : String)
    (hf : 1 ≤ familySize) (hm : 0 ≤ monthlyIncome) :
    (checkEligibility familySize monthlyIncome state).limit
      = (15060 / 12 + (familySize - 1) * (5380 / 12)) * 1.3 ∧
    ((checkEligibility familySize monthlyIncome state).isEligible = true ↔
      monthlyIncome ≤ (checkEligibility familySize monthlyIncome state).limit) := by
  refine ⟨rfl, ?_⟩
  simp only [checkEligibility, decide_eq_true_eq]

/-- Witness for C1 at familySize 1, monthlyIncome 1200 (spec example 2). -/
theorem c1_eligibility_rule_check :
    (1 : ℚ) ≤ 1 ∧ (0 : ℚ) ≤ 1200 ∧
    ((checkEligibility 1 1200 "California").limit
        = (15060 / 12 + ((1 : ℚ) - 1) * (5380 / 12)) * 1.3 ∧
      ((checkEligibility 1 1200 "California").isEligible = true ↔
        (1200 : ℚ) ≤ (checkEligibility 1 1200 "California").limit)) :=
  ⟨le_refl 1, by decide, c1_eligibility_rule 1 1200 "California" (le_refl 1) (by decide)⟩

/-- C2 counterexample: at the invalid input familySize 0, monthlyIncome -5,
checkEligibility does not reject; it silently computes and returns a normal
result (a limit below the single-person limit, and an eligible verdict). -/
theorem c2_counterexample :
    (checkEligibility 0 (-5) "Texas").isEligible = true ∧
    (checkEligibility 0 (-5) "Texas").limit = 3146 / 3 := by
  constructor
  · simp only [checkEligibility, decide_eq_true_eq]
    norm_num [fplBase, fplIncrement]
  · show (fplBase + ((0 : ℚ) - 1) * fplIncrement) * 1.3 = 3146 / 3
    norm_num [fplBase, fplIncrement]

/-- C2 amended: checkEligibility performs no validation of its inputs; for
every familySize and monthlyIncome, including familySize below 1 and
negative monthlyIncome, it computes the limit by the same formula and the
verdict by the same comparison, and returns a result rather than raising
an error. -/
theorem c2_no_input_validation (familySize monthlyIncome : ℚ) (state : String) :
    (checkEligibility familySize monthlyIncome state).limit
      = (15060 / 12 + (familySize - 1) * (5380 / 12)) * 1.3 ∧
    ((checkEligibility familySize monthlyIncome state).isEligible = true ↔
      monthlyIncome ≤ (checkEligibility familySize monthlyIncome state).limit) := by
  refine ⟨rfl, ?_⟩
  simp only [checkEligibility, decide_eq_true_eq]

/-- C5: the limit returned by checkEligibility is monotonically
non-decreasing in familySize. -/
theorem c5_limit_monotone (f1 f2 monthlyIncome : ℚ) (state : String)
    (h1 : 1 ≤ f1) (h12 : f1 ≤ f2) :
    (checkEligibility f1 monthlyIncome state).limit
      ≤ (checkEligibility f2 monthlyIncome state).limit := by
  show (fplBase + (f1 - 1) * fplIncrement) * 1.3
      ≤ (fplBase + (f2 - 1) * fplIncrement) * 1.3
  have hinc : (0 : ℚ) < fplIncrement := by norm_num [fplIncrement]
  nlinarith

/-- Witness for C5 at familySize 1 and 4. -/
theorem c5_limit_monotone_check :
    (1 : ℚ) ≤ 1 ∧ (1 : ℚ) ≤ 4 ∧
    (checkEligibility 1 4000 "Ohio").limit ≤ (checkEligibility 4 4000 "Ohio").limit :=
  ⟨le_refl 1, by decide, c5_limit_monotone 1 4 4000 "Ohio" (le_refl 1) (by decide)⟩

/-! ## Theorems: the parsing step -/

/-- A marker occurs nowhere exactly when its occurrence count is zero. -/
theorem occursIn_eq_false_iff (m : List Char) (s : List Char) :
    occursIn m s = false ↔ countOcc m s = 0 := by
  induction s with
  | nil =>
      by_cases h : leadsWith m [] = true
      · simp [occursIn, countOcc, h]
      · simp only [Bool.not_eq_true] at h
        simp [occursIn, countOcc, h]
  | cons c rest ih =>
      by_cases h : leadsWith m (c :: rest) = true
      · simp [occursIn, countOcc, h]
      · simp only [Bool.not_eq_true] at h
        simp [occursIn, countOcc, h, ih]

/-- The scan for the first occurrence fails exactly when the marker is
absent. -/
theorem afterFirst_eq_none (m : List Char) (s : List Char) :
    afterFirst m s = none ↔ occursIn m s = false := by
  induction s with
  | nil =>
      by_cases h : leadsWith m [] = true <;>
        simp [afterFirst, occursIn, h]
  | cons c rest ih =>
      by_cases h : leadsWith m (c :: rest) = true <;>
        simp [afterFirst, occursIn, h, ih]

/-- An occurrence inside a dropped suffix is an occurrence. -/
theorem occursIn_of_drop (m : List Char) :
    ∀ (k : Nat) (s : List Char), occursIn m (s.drop k) = true →
      occursIn m s = true := by
  intro k
  induction k with
  | zero => intro s h; simpa using h
  | succ n ih =>
      intro s h
      cases s with
      | nil => simpa using h
      | cons c rest =>
          have hrest : occursIn m rest = true := ih rest (by simpa using h)
          simp [occursIn, hrest]

/-- A present marker contributes at least one occurrence. -/
theorem one_le_countOcc (m : List Char) (s : List Char)
    (h : occursIn m s = true) : 1 ≤ countOcc m s := by
  by_contra hc
  have h0 : countOcc m s = 0 := by omega
  have := (occursIn_eq_false_iff m s).mpr h0
  rw [this] at h
  exact Bool.false_ne_true h

/-- After the first occurrence of a marker that occurs exactly once, the
marker does not occur again. -/
theorem not_occursIn_afterFirst (m : List Char) (hm : m ≠ []) :
    ∀ (s r : List Char), countOcc m s = 1 → afterFirst m s = some r →
      occursIn m r = false := by
  intro s
  induction s with
  | nil =>
      intro r h1 h2
      cases m with
      | nil => exact absurd rfl hm
      | cons a as => simp [afterFirst, leadsWith] at h2
  | cons c rest ih =>
      intro r h1 h2
      by_cases h : leadsWith m (c :: rest) = true
      · have hr : r = (c :: rest).drop m.length := by
          rw [afterFirst, if_pos h] at h2
          exact (Option.some_inj.mp h2).symm
        have hcount : countOcc m rest = 0 := by
          rw [countOcc, if_pos h] at h1
          omega
        by_contra hocc
        simp only [Bool.not_eq_false] at hocc
        obtain ⟨a, as, rfl⟩ : ∃ a as, m = a :: as := by
          cases m with
          | nil => exact absurd rfl hm
          | cons a as => exact ⟨a, as, rfl⟩
        have hdrop : (c :: rest).drop (a :: as).length = rest.drop as.length := by
          simp [List.drop_succ_cons]
        rw [hr, hdrop] at hocc
        have hagain : occursIn (a :: as) rest = true :=
          occursIn_of_drop (a :: as) as.length rest hocc
        have := one_le_countOcc (a :: as) rest hagain
        omega
      · simp only [Bool.not_eq_true] at h
        have h2r : afterFirst m rest = some r := by
          rw [afterFirst, if_neg (by simp [h])] at h2
          exact h2
        have h1r : countOcc m rest = 1 := by
          rw [countOcc, if_neg (by simp [h])] at h1
          omega
        exact ih r h1r h2r

/-- Removing from the stop set a marker that does not occur in the text
leaves the lazy capture unchanged. -/
theorem captureUntil_erase (m : List Char) (l1 l2 : List (List Char)) :
    ∀ s : List Char, occursIn m s = false →
      captureUntil (l1 ++ m :: l2) s = captureUntil (l1 ++ l2) s := by
  intro s
  induction s with
  | nil => intro _; rfl
  | cons c rest ih =>
      intro h
      rw [occursIn] at h
      simp only [Bool.or_eq_false_iff] at h
      have hany : (l1 ++ m :: l2).any (fun mm => leadsWith mm (c :: rest))
          = (l1 ++ l2).any (fun mm => leadsWith mm (c :: rest)) := by
        simp [List.any_append, List.any_cons, h.1]
      rw [captureUntil, captureUntil, hany, ih h.2]

/-- With the hypothesis that the marker occurs exactly once, the section
the code regex extracts (stopping only at the other two markers) agrees
with the section the spec describes (stopping at any of the three
markers). -/
theorem extractSection_eq_specSection (m : List Char) (l1 l2 : List (List Char))
    (hm : m ≠ []) (hall : allMarkers = l1 ++ m :: l2) (text : List Char)
    (h1 : countOcc m text = 1) :
    extractSection m (l1 ++ l2) text = specSection m text := by
  unfold extractSection specSection
  cases haf : afterFirst m text with
  | none => rfl
  | some rest =>
      have hno : occursIn m rest = false :=
        not_occursIn_afterFirst m hm text rest h1 haf
      show String.mk (trimChars (captureUntil (l1 ++ l2) rest))
          = String.mk (trimChars (captureUntil allMarkers rest))
      rw [hall, captureUntil_erase m l1 l2 rest hno]

/-- An absent marker yields the empty section. -/
theorem extractSection_of_absent (m : List Char) (stops : List (List Char))
    (text : List Char) (h : countOcc m text = 0) :
    extractSection m stops text = "" := by
  unfold extractSection
  have hocc : occursIn m text = false := (occursIn_eq_false_iff m text).mpr h
  rw [(afterFirst_eq_none m text).mpr hocc]

/-- C3: for every response text containing each of the three markers
exactly once, in any order, the parsing step produces each of office,
stores and pantries equal to the whitespace-trimmed substring between
that marker and the next marker occurring in the text or the end of the
text, whichever comes first (the section the spec wording describes);
and for any marker absent from the text the corresponding section is the
empty string. -/
theorem c3_parsing_contract (text : String) (chunks : List GroundingChunk) :
    (countOcc officeMarker text.data = 1 → countOcc storesMarker text.data = 1 →
      countOcc pantriesMarker text.data = 1 →
        (parseResources text chunks).office = specSection officeMarker text.data ∧
        (parseResources text chunks).stores = specSection storesMarker text.data ∧
        (parseResources text chunks).pantries = specSection pantriesMarker text.data) ∧
    (countOcc officeMarker text.data = 0 → (parseResources text chunks).office = "") ∧
    (countOcc storesMarker text.data = 0 → (parseResources text chunks).stores = "") ∧
    (countOcc pantriesMarker text.data = 0 → (parseResources text chunks).pantries = "") := by
  refine ⟨fun h1 h2 h3 => ⟨?_, ?_, ?_⟩, fun h => ?_, fun h => ?_, fun h => ?_⟩
  · exact extractSection_eq_specSection officeMarker []
      [storesMarker, pantriesMarker] (by decide) rfl text.data h1
  · exact extractSection_eq_specSection storesMarker [officeMarker]
      [pantriesMarker] (by decide) rfl text.data h2
  · exact extractSection_eq_specSection pantriesMarker [officeMarker, storesMarker]
      [] (by decide) rfl text.data h3
  · exact extractSection_of_absent officeMarker [storesMarker, pantriesMarker]
      text.data h
  · exact extractSection_of_absent storesMarker [officeMarker, pantriesMarker]
      text.data h
  · exact extractSection_of_absent pantriesMarker [officeMarker, storesMarker]
      text.data h

/-- Witness for C3 on a concrete response containing the three markers
once each. -/
theorem c3_parsing_contract_check :
    countOcc officeMarker sampleResponse.data = 1 ∧
    countOcc storesMarker sampleResponse.data = 1 ∧
    countOcc pantriesMarker sampleResponse.data = 1 ∧
    ((parseResources sampleResponse []).office
        = specSection officeMarker sampleResponse.data ∧
      (parseResources sampleResponse []).stores
        = specSection storesMarker sampleResponse.data ∧
      (parseResources sampleResponse []).pantries
        = specSection pantriesMarker sampleResponse.data) :=
  ⟨by decide, by decide, by decide,
    (c3_parsing_contract sampleResponse []).1 (by decide) (by decide) (by decide)⟩

/-- C4: for every response text containing none of the three markers, the
parsed bundle has empty office, stores and pantries sections, and its
fullText equals the original response text verbatim. -/
theorem c4_parse_fallback (text : String) (chunks : List GroundingChunk)
    (h1 : countOcc officeMarker text.data = 0)
    (h2 : countOcc storesMarker text.data = 0)
    (h3 : countOcc pantriesMarker text.data = 0) :
    (parseResources text chunks).office = "" ∧
    (parseResources text chunks).stores = "" ∧
    (parseResources text chunks).pantries = "" ∧
    (parseResources text chunks).fullText = text :=
  ⟨extractSection_of_absent officeMarker [storesMarker, pantriesMarker] text.data h1,
    extractSection_of_absent storesMarker [officeMarker, pantriesMarker] text.data h2,
    extractSection_of_absent pantriesMarker [officeMarker, storesMarker] text.data h3,
    rfl⟩

/-- Witness for C4 on a concrete marker-free response. -/
theorem c4_parse_fallback_check :
    countOcc officeMarker "No resources found.".data = 0 ∧
    countOcc storesMarker "No resources found.".data = 0 ∧
    countOcc pantriesMarker "No resources found.".data = 0 ∧
    ((parseResources "No resources found." []).office = "" ∧
      (parseResources "No resources found." []).stores = "" ∧
      (parseResources "No resources found." []).pantries = "" ∧
      (parseResources "No resources found." []).fullText = "No resources found.") :=
  ⟨by decide, by decide, by decide,
    c4_parse_fallback "No resources found." [] (by decide) (by decide) (by decide)⟩

/-- C6 counterexample: a citation record lacking a source URL is not
removed from the produced bundle, so the citation sequence differs from
the URL-filtered sequence the claim describes. -/
theorem c6_counterexample :
    (fetchParsedResources (getSnapResources
        { text := some "", groundingChunks := some [{ web := none }] })).groundingChunks
      ≠ List.filter (fun c => c.web.isSome)
          [({ web := none } : GroundingChunk)] := by
  decide

/-- C6 amended: the citation sequence of the produced bundle equals the
sequence returned by the retrieval service verbatim, in the same order
and unfiltered (absence of the whole sequence coalesced to the empty
list); records lacking a source URL are kept, the rendering layer alone
skips them. -/
theorem c6_citations_passthrough (response : ServiceResponse) :
    (fetchParsedResources (getSnapResources response)).groundingChunks
      = response.groundingChunks.getD [] := rfl

/-- C10: in every bundle the parsing step produces, the fullText field
equals the parsed response text verbatim, whether or not any section
parsed successfully. -/
theorem c10_fulltext_verbatim (text : String) (chunks : List GroundingChunk) :
    (parseResources text chunks).fullText = text := rfl

/-! ## Theorems: session controller -/

/-- C7 counterexample: in text mode with the microphone unavailable, the
handler still requests the audio-capture permission (the very guard the
claim says is skipped there), and a denied voice-mode start is only
logged to the console, not reported to the caller. -/
theorem c7_counterexample :
    (handleStartSession true false false).micRequested = true ∧
    (handleStartSession false false false).raisedToCaller = false := by
  decide

/-- C7 amended: handleStartSession requests the audio-capture permission
in voice and in text mode alike; when the permission is denied or
unavailable the start aborts in either mode - the transport session is
never requested and the connection stays down - and the failure is logged
to the console rather than propagated to the caller. -/
theorem c7_permission_guard (isTextMode startOk : Bool) :
    (handleStartSession isTextMode true startOk).micRequested = true ∧
    (handleStartSession isTextMode false startOk).micRequested = true ∧
    (handleStartSession isTextMode false startOk).sessionRequested = false ∧
    (handleStartSession isTextMode false startOk).connectedAfter = false ∧
    (handleStartSession isTextMode false startOk).errorLoggedToConsole = true ∧
    (handleStartSession isTextMode false startOk).raisedToCaller = false := by
  cases isTextMode <;> cases startOk <;> decide

/-- C8 counterexample: from a connected state, two rapid toggles leave the
first toggle's deferred start pending (the component has no cancellation
path), and when the timer later fires a start still executes, although
the mode has meanwhile been flipped back to its original value. -/
theorem c8_counterexample :
    (handleToggleMode (handleToggleMode
        { connected := true, isTextMode := false, pendingStarts := 0 })).pendingStarts = 1 ∧
    (handleToggleMode (handleToggleMode
        { connected := true, isTextMode := false, pendingStarts := 0 })).isTextMode = false ∧
    (fireDeferredStart true (handleToggleMode (handleToggleMode
        { connected := true, isTextMode := false, pendingStarts := 0 }))).connected = true := by
  decide

/-- C8 amended: two toggleMode calls in rapid succession from a connected
state schedule exactly one deferred start in total (the second toggle
runs disconnected and schedules none), leave the mode at its original
value and the connection down; the pending deferred start of the first
toggle is not cancelled by the second toggle and still fires. -/
theorem c8_toggle_twice (s : AgentUi) (h : s.connected = true) :
    (handleToggleMode (handleToggleMode s)).pendingStarts = s.pendingStarts + 1 ∧
    (handleToggleMode (handleToggleMode s)).isTextMode = s.isTextMode ∧
    (handleToggleMode (handleToggleMode s)).connected = false := by
  cases s with
  | mk c t p =>
      have hc : c = true := h
      subst hc
      cases t <;> simp [handleToggleMode, handleEndSession]

/-- Witness for C8 amended at a concrete connected state. -/
theorem c8_toggle_twice_check :
    ({ connected := true, isTextMode := false, pendingStarts := 0 } : AgentUi).connected
        = true ∧
    ((handleToggleMode (handleToggleMode
        ({ connected := true, isTextMode := false, pendingStarts := 0 } : AgentUi))).pendingStarts
        = 1 ∧
      (handleToggleMode (handleToggleMode
        ({ connected := true, isTextMode := false, pendingStarts := 0 } : AgentUi))).isTextMode
        = false ∧
      (handleToggleMode (handleToggleMode
        ({ connected := true, isTextMode := false, pendingStarts := 0 } : AgentUi))).connected
        = false) :=
  ⟨rfl, c8_toggle_twice
    { connected := true, isTextMode := false, pendingStarts := 0 } rfl⟩

/-! ## Theorems: message log -/

/-- Running the ingestion loop on events whose sources are all ai or user
extends the log by exactly the index-explicit block. -/
theorem ingestFrom_eq_buildLog (clock : Nat → Nat) (rand : Nat → String) :
    ∀ (events : List IncomingEvent) (k : Nat) (msgs : List Message),
      (∀ e ∈ events, e.source = "ai" ∨ e.source = "user") →
      ingestFrom clock rand events k msgs = msgs ++ buildLog clock rand k events := by
  intro events
  induction events with
  | nil => intro k msgs _; simp [ingestFrom, buildLog]
  | cons e es ih =>
      intro k msgs h
      have he := h e (List.mem_cons_self e es)
      have hes : ∀ x ∈ es, x.source = "ai" ∨ x.source = "user" :=
        fun x hx => h x (List.mem_cons_of_mem e hx)
      by_cases hai : e.source = "ai"
      · rw [ingestFrom, if_pos hai, ih (k + 1) _ hes, buildLog]
        simp [addMessage, hai]
      · have huser : e.source = "user" := he.resolve_left hai
        rw [ingestFrom, if_neg hai, if_pos huser, ih (k + 1) _ hes, buildLog]
        simp [addMessage, hai]

/-- The index-explicit block has one entry per event. -/
theorem buildLog_length (clock : Nat → Nat) (rand : Nat → String) :
    ∀ (events : List IncomingEvent) (k : Nat),
      (buildLog clock rand k events).length = events.length := by
  intro events
  induction events with
  | nil => intro k; rfl
  | cons e es ih => intro k; simp [buildLog, ih]

/-- The identifiers of the index-explicit block are the oracle-derived
identifiers at the consecutive draw indices. -/
theorem buildLog_map_id (clock : Nat → Nat) (rand : Nat → String) :
    ∀ (events : List IncomingEvent) (k : Nat),
      (buildLog clock rand k events).map Message.id
        = (List.range' k events.length).map (fun i => mkId (clock i) (rand i)) := by
  intro events
  induction events with
  | nil => intro k; rfl
  | cons e es ih =>
      intro k
      rw [buildLog, List.map_cons, ih (k + 1), List.length_cons,
        List.range'_succ, List.map_cons]

/-- The timestamps of the index-explicit block are the clock values at the
consecutive draw indices. -/
theorem buildLog_map_timestamp (clock : Nat → Nat) (rand : Nat → String) :
    ∀ (events : List IncomingEvent) (k : Nat),
      (buildLog clock rand k events).map Message.timestamp
        = (List.range' k events.length).map clock := by
  intro events
  induction events with
  | nil => intro k; rfl
  | cons e es ih =>
      intro k
      rw [buildLog, List.map_cons, ih (k + 1), List.length_cons,
        List.range'_succ, List.map_cons]

/-- The index-explicit block reads only the source and the message of
each event; in particular the externally supplied timestamps are never
consulted. -/
theorem buildLog_congr (clock : Nat → Nat) (rand : Nat → String) :
    ∀ (es1 es2 : List IncomingEvent) (k : Nat),
      es1.map IncomingEvent.source = es2.map IncomingEvent.source →
      es1.map IncomingEvent.message = es2.map IncomingEvent.message →
      buildLog clock rand k es1 = buildLog clock rand k es2 := by
  intro es1
  induction es1 with
  | nil =>
      intro es2 k h1 _
      cases es2 with
      | nil => rfl
      | cons f fs => simp at h1
  | cons e es ih =>
      intro es2 k h1 h2
      cases es2 with
      | nil => simp at h1
      | cons f fs =>
          simp only [List.map_cons, List.cons.injEq] at h1 h2
          rw [buildLog, buildLog, h1.1, h2.1, ih fs (k + 1) h1.2 h2.2]

/-- C9 counterexample: when the clock does not advance between two appends
and the random draw repeats, the two appended messages carry the same
identifier, so the log does not carry pairwise unique identifiers. -/
theorem c9_counterexample :
    ¬ (((ingest (fun _ => 7) (fun _ => "abc")
        [{ message := "hello", source := "user", extTimestamp := 5 },
          { message := "hi there", source := "ai", extTimestamp := 5 }]).map
            Message.id).Nodup) := by
  decide

/-- C9 amended: for any sequence of ingested message events whose sources
are user or agent, the log has exactly one entry per event, in arrival
order, described index for index by the event list (so two events with
identical externally-reported timestamps still land in call order); each
entry carries the append-time clock value as its timestamp and an
identifier built from the append-time clock and random draws, and these
identifiers are pairwise distinct provided no two draws collide; no
timestamp carried by a source event is consulted. -/
theorem c9_message_log (clock : Nat → Nat) (rand : Nat → String)
    (events : List IncomingEvent)
    (hsrc : ∀ e ∈ events, e.source = "ai" ∨ e.source = "user")
    (hid : ((List.range' 0 events.length).map
        (fun i => mkId (clock i) (rand i))).Nodup) :
    (ingest clock rand events).length = events.length ∧
    ingest clock rand events = buildLog clock rand 0 events ∧
    ((ingest clock rand events).map Message.id).Nodup ∧
    (ingest clock rand events).map Message.timestamp
      = (List.range' 0 events.length).map clock ∧
    (∀ events2 : List IncomingEvent,
        events2.map IncomingEvent.source = events.map IncomingEvent.source →
        events2.map IncomingEvent.message = events.map IncomingEvent.message →
        ingest clock rand events2 = ingest clock rand events) := by
  have hmain : ingest clock rand events = buildLog clock rand 0 events := by
    unfold ingest
    rw [ingestFrom_eq_buildLog clock rand events 0 [] hsrc, List.nil_append]
  refine ⟨?_, hmain, ?_, ?_, ?_⟩
  · rw [hmain]; exact buildLog_length clock rand events 0
  · rw [hmain, buildLog_map_id clock rand events 0]; exact hid
  · rw [hmain]; exact buildLog_map_timestamp clock rand events 0
  · intro events2 h1 h2
    have hsrc2 : ∀ e ∈ events2, e.source = "ai" ∨ e.source = "user" := by
      intro e he
      have hmem : e.source ∈ events2.map IncomingEvent.source :=
        List.mem_map_of_mem IncomingEvent.source he
      rw [h1] at hmem
      obtain ⟨f, hf, hfe⟩ := List.mem_map.mp hmem
      rw [← hfe]
      exact hsrc f hf
    have hmain2 : ingest clock rand events2 = buildLog clock rand 0 events2 := by
      unfold ingest
      rw [ingestFrom_eq_buildLog clock rand events2 0 [] hsrc2, List.nil_append]
    rw [hmain, hmain2]
    exact buildLog_congr clock rand events2 events 0 h1 h2

/-- A concrete pair of incoming events carrying identical external
timestamps, used as a check input. -/
def sampleEvents : List IncomingEvent :=
  [{ message := "hello", source := "user", extTimestamp := 5 },
    { message := "hi there", source := "ai", extTimestamp := 5 }]

/-- Witness for C9 amended on two concrete events with identical external
timestamps and an advancing clock. -/
theorem c9_message_log_check :
    (∀ e ∈ sampleEvents, e.source = "ai" ∨ e.source = "user") ∧
    ((List.range' 0 sampleEvents.length).map
        (fun i => mkId (100 + i) "zz")).Nodup ∧
    (ingest (fun i => 100 + i) (fun _ => "zz") sampleEvents).length
        = sampleEvents.length ∧
    ingest (fun i => 100 + i) (fun _ => "zz") sampleEvents
        = buildLog (fun i => 100 + i) (fun _ => "zz") 0 sampleEvents ∧
    ((ingest (fun i => 100 + i) (fun _ => "zz") sampleEvents).map Message.id).Nodup ∧
    (ingest (fun i => 100 + i) (fun _ => "zz") sampleEvents).map Message.timestamp
        = (List.range' 0 sampleEvents.length).map (fun i => 100 + i) :=
  ⟨by decide, by decide,
    (c9_message_log (fun i => 100 + i) (fun _ => "zz") sampleEvents
      (by decide) (by decide)).1,
    (c9_message_log (fun i => 100 + i) (fun _ => "zz") sampleEvents
      (by decide) (by decide)).2.1,
    (c9_message_log (fun i => 100 + i) (fun _ => "zz") sampleEvents
      (by decide) (by decide)).2.2.1,
    (c9_message_log (fun i => 100 + i) (fun _ => "zz") sampleEvents
      (by decide) (by decide)).2.2.2.1⟩

end Benefind
